import Mathlib

/-!
Verification of the AutomatedTestBench control-plane code: a shallow
embedding in Lean 4 of the ISO 4064 error calculation, the ASP protocol
(sequence counter, frame codec, fragmentation), the valve controller,
the manual-control command handler, the safety watchdog, the PID flow
controller and the message-queue receive path, together with theorems
settling the specification claims about them.

Python floats are modelled as rationals, byte strings as lists of
naturals below 256, and Python dicts as association lists.
-/

namespace ATB

/-! ## testing/iso4064.py -/

namespace Iso4064

/-- `calculate_error` from `testing/iso4064.py`: meter error percentage. -/
def calculate_error (ref_volume_l dut_volume_l : ℚ) : ℚ :=
  if ref_volume_l = 0 then 0
  else (dut_volume_l - ref_volume_l) / ref_volume_l * 100

/-- `check_pass` from `testing/iso4064.py`: error within MPE. -/
def check_pass (error_pct mpe_pct : ℚ) : Bool :=
  decide (|error_pct| ≤ |mpe_pct|)

end Iso4064

/-! ## comms/protocol.py — SequenceCounter -/

namespace Protocol

/-- Association-list lookup, modelling Python `dict.get`. -/
def lookupAssoc (k : Nat) : List (Nat × Nat) → Option Nat
  | [] => none
  | (a, b) :: rest => if a = k then some b else lookupAssoc k rest

/-- Association-list update, modelling Python `dict[k] = v`. -/
def updateAssoc (k v : Nat) : List (Nat × Nat) → List (Nat × Nat)
  | [] => [(k, v)]
  | (a, b) :: rest =>
      if a = k then (k, v) :: rest else (a, b) :: updateAssoc k v rest

/-- State of `SequenceCounter` from `comms/protocol.py`. -/
structure SequenceCounter where
  counter : Nat
  lastReceived : List (Nat × Nat)
  deriving Repr, DecidableEq

/-- The fresh counter `SequenceCounter.__init__`. -/
def SequenceCounter.init : SequenceCounter := ⟨0, []⟩

/-- `SequenceCounter.check_and_update` from `comms/protocol.py`.
`now` is the value of `int(time.time())` at the call.
Returns the accept decision and the updated counter state. -/
def SequenceCounter.check_and_update (sc : SequenceCounter)
    (device_id seq : Nat) (timestamp now : Int) : Bool × SequenceCounter :=
  if 300 < (now - timestamp).natAbs then (false, sc)
  else
    match lookupAssoc device_id sc.lastReceived with
    | some last =>
        let diff : Int := ((seq : Int) - (last : Int)) % 65536
        if diff = 0 ∨ 32768 < diff then (false, sc)
        else (true, { sc with
                      lastReceived := updateAssoc device_id seq sc.lastReceived })
    | none => (true, { sc with
                       lastReceived := updateAssoc device_id seq sc.lastReceived })

theorem lookup_updateAssoc (k v : Nat) (m : List (Nat × Nat)) :
    lookupAssoc k (updateAssoc k v m) = some v := by
  induction m with
  | nil => simp [lookupAssoc, updateAssoc]
  | cons p rest ih =>
      obtain ⟨a, b⟩ := p
      by_cases h : a = k <;> simp [lookupAssoc, updateAssoc, h, ih]

/-! ### Frame codec (`encode` / `decode`) with `comms/crypto.py` -/

/-- Big-endian byte string of width `w` for a value, as produced by
`struct.pack` (`!I` for w = 4, `!H` for w = 2). -/
def beBytes : Nat → Nat → List Nat
  | 0, _ => []
  | w + 1, v => beBytes w (v / 256) ++ [v % 256]

/-- Value of a big-endian byte string, as read by `struct.unpack`. -/
def beVal (bs : List Nat) : Nat := bs.foldl (fun a b => a * 256 + b) 0

/-- `HEADER_SIZE` (10 bytes: `!IHI`). -/
def HEADER_SIZE : Nat := 10

/-- `HMAC_SIZE` (32 bytes). -/
def HMAC_SIZE : Nat := 32

/-- `struct.pack(HEADER_FMT, device_id, seq, timestamp)`. -/
def packHeader (device_id seq timestamp : Nat) : List Nat :=
  beBytes 4 device_id ++ (beBytes 2 seq ++ beBytes 4 timestamp)

/-- `struct.unpack(HEADER_FMT, ...)` on a 10-byte header. -/
def unpackHeader (bs : List Nat) : Nat × Nat × Nat :=
  (beVal (bs.take 4), beVal ((bs.drop 4).take 2), beVal ((bs.drop 6).take 4))

/-- The external primitives the codec calls, under a fixed session key
pair and a fixed fresh IV: JSON serialisation (`json` stdlib), zlib
compression, raw AES-256-CBC of the PKCS7-padded plaintext
(pycryptodome), and HMAC-SHA256 (`hmac` stdlib).  These libraries are
outside the repository; the codec theorems hold for any implementations
meeting the library contracts stated as hypotheses. -/
structure CodecPrims (α : Type) where
  jsonDumps : α → List Nat
  jsonLoads : List Nat → Option α
  compress : List Nat → List Nat
  decompress : List Nat → Option (List Nat)
  iv : List Nat
  aesEncrypt : List Nat → List Nat
  aesDecrypt : List Nat → List Nat → Option (List Nat)
  hmacSha256 : List Nat → List Nat

/-- `encrypt` from `comms/crypto.py`: IV (16 bytes) + ciphertext. -/
def cryptoEncrypt {α : Type} (P : CodecPrims α) (plaintext : List Nat) :
    List Nat :=
  P.iv ++ P.aesEncrypt plaintext

/-- `decrypt` from `comms/crypto.py`: split the IV prefix and decrypt;
`none` models the `ValueError` on short input or bad padding. -/
def cryptoDecrypt {α : Type} (P : CodecPrims α) (encrypted : List Nat) :
    Option (List Nat) :=
  if encrypted.length < 32 then none
  else P.aesDecrypt (encrypted.take 16) (encrypted.drop 16)

/-- `sign` from `comms/crypto.py`. -/
def cryptoSign {α : Type} (P : CodecPrims α) (data : List Nat) : List Nat :=
  P.hmacSha256 data

/-- `verify` from `comms/crypto.py` (constant-time compare modelled as
plain equality). -/
def cryptoVerify {α : Type} (P : CodecPrims α) (data tag : List Nat) : Bool :=
  decide (P.hmacSha256 data = tag)

/-- The `ASPFrame` dataclass, with the payload dict abstracted to `α`. -/
structure ASPFrame (α : Type) where
  device_id : Nat
  seq : Nat
  timestamp : Nat
  payload : α

/-- `encode` from `comms/protocol.py`. -/
def encode {α : Type} (P : CodecPrims α) (payload : α)
    (device_id seq timestamp : Nat) : List Nat :=
  let payload_json := P.jsonDumps payload
  let compressed := P.compress payload_json
  let encrypted := cryptoEncrypt P compressed
  let header := packHeader device_id seq timestamp
  let frame_body := header ++ encrypted
  frame_body ++ cryptoSign P frame_body

/-- `decode` from `comms/protocol.py`; `Except.error` carries the
`ValueError` message. -/
def decode {α : Type} (P : CodecPrims α) (frame : List Nat) :
    Except String (ASPFrame α) :=
  if frame.length < HEADER_SIZE + 32 + HMAC_SIZE then
    Except.error "Frame too short"
  else
    let frame_body := frame.take (frame.length - HMAC_SIZE)
    let received_tag := frame.drop (frame.length - HMAC_SIZE)
    if cryptoVerify P frame_body received_tag = false then
      Except.error "HMAC verification failed — frame tampered or wrong key"
    else
      let hdr := unpackHeader (frame_body.take HEADER_SIZE)
      let encrypted := frame_body.drop HEADER_SIZE
      match cryptoDecrypt P encrypted with
      | none => Except.error "decryption error"
      | some compressed =>
          match P.decompress compressed with
          | none => Except.error "decompression error"
          | some payload_json =>
              match P.jsonLoads payload_json with
              | none => Except.error "malformed payload JSON"
              | some payload =>
                  Except.ok ⟨hdr.1, hdr.2.1, hdr.2.2, payload⟩

theorem beBytes_length (w v : Nat) : (beBytes w v).length = w := by
  induction w generalizing v with
  | zero => rfl
  | succ w ih => simp [beBytes, ih]

theorem beVal_append_one (xs : List Nat) (b : Nat) :
    beVal (xs ++ [b]) = beVal xs * 256 + b := by
  simp [beVal, List.foldl_append]

theorem beVal_beBytes (w v : Nat) (h : v < 256 ^ w) :
    beVal (beBytes w v) = v := by
  induction w generalizing v with
  | zero =>
      simp only [beBytes, beVal, List.foldl_nil]
      simp only [pow_zero] at h
      omega
  | succ w ih =>
      have hdiv : v / 256 < 256 ^ w := by
        rw [Nat.div_lt_iff_lt_mul (by norm_num)]
        calc v < 256 ^ (w + 1) := h
          _ = 256 ^ w * 256 := by ring
      rw [beBytes, beVal_append_one, ih _ hdiv]
      omega

theorem unpackHeader_packHeader (did seq ts : Nat)
    (h1 : did < 2 ^ 32) (h2 : seq < 2 ^ 16) (h3 : ts < 2 ^ 32) :
    unpackHeader (packHeader did seq ts) = (did, seq, ts) := by
  have l4 : (beBytes 4 did).length = 4 := beBytes_length 4 did
  have l2 : (beBytes 2 seq).length = 2 := beBytes_length 2 seq
  have l4b : (beBytes 4 ts).length = 4 := beBytes_length 4 ts
  have h6 : (beBytes 4 did ++ beBytes 2 seq).length = 6 := by
    rw [List.length_append, l4, l2]
  have hd : did < 256 ^ 4 := by norm_num at h1 ⊢; omega
  have hs : seq < 256 ^ 2 := by norm_num at h2 ⊢; omega
  have ht : ts < 256 ^ 4 := by norm_num at h3 ⊢; omega
  unfold unpackHeader packHeader
  rw [List.take_left' l4]
  rw [List.drop_left' l4, List.take_left' l2]
  rw [← List.append_assoc, List.drop_left' h6,
    List.take_of_length_le (le_of_eq l4b)]
  rw [beVal_beBytes 4 did hd, beVal_beBytes 2 seq hs, beVal_beBytes 4 ts ht]

theorem encode_eq {α : Type} (P : CodecPrims α) (p : α)
    (did seq ts : Nat) :
    encode P p did seq ts =
      (packHeader did seq ts ++
        (P.iv ++ P.aesEncrypt (P.compress (P.jsonDumps p)))) ++
        P.hmacSha256 (packHeader did seq ts ++
          (P.iv ++ P.aesEncrypt (P.compress (P.jsonDumps p)))) := rfl

theorem packHeader_length (did seq ts : Nat) :
    (packHeader did seq ts).length = 10 := by
  simp [packHeader, beBytes_length]

/-! ### Fragmentation (`fragment`, `FragmentReassembler`) -/

/-- `MAX_LORA_PAYLOAD` from `comms/protocol.py`. -/
def MAX_LORA_PAYLOAD : Nat := 255

/-- `FRAGMENT_HEADER_SIZE` from `comms/protocol.py`. -/
def FRAGMENT_HEADER_SIZE : Nat := 3

/-- `MAX_FRAGMENT_DATA = MAX_LORA_PAYLOAD - FRAGMENT_HEADER_SIZE`. -/
def MAX_FRAGMENT_DATA : Nat := MAX_LORA_PAYLOAD - FRAGMENT_HEADER_SIZE

/-- The `Fragment` dataclass; `data` is a byte string. -/
structure Fragment where
  frag_id : Nat
  frag_index : Nat
  total_fragments : Nat
  data : List Nat
  deriving Repr, DecidableEq

/-- Generic association-list lookup (`dict.get`). -/
def alookup {α : Type} (k : Nat) : List (Nat × α) → Option α
  | [] => none
  | (a, b) :: rest => if a = k then some b else alookup k rest

/-- Generic association-list write (`dict[k] = v`). -/
def aset {α : Type} (k : Nat) (v : α) : List (Nat × α) → List (Nat × α)
  | [] => [(k, v)]
  | (a, b) :: rest => if a = k then (k, v) :: rest else (a, b) :: aset k v rest

/-- Generic association-list delete (`del dict[k]` / `dict.pop`). -/
def aremove {α : Type} (k : Nat) : List (Nat × α) → List (Nat × α)
  | [] => []
  | (a, b) :: rest => if a = k then rest else (a, b) :: aremove k rest

/-- The while-loop in `fragment`: split the frame into
`MAX_FRAGMENT_DATA`-byte chunks. -/
def chunksOf (l : List Nat) : List (List Nat) :=
  if l = [] then []
  else l.take MAX_FRAGMENT_DATA :: chunksOf (l.drop MAX_FRAGMENT_DATA)
termination_by l.length
decreasing_by
  simp only [List.length_drop, MAX_FRAGMENT_DATA, MAX_LORA_PAYLOAD,
    FRAGMENT_HEADER_SIZE]
  have : l.length ≠ 0 := fun h => by
    simp_all [List.length_eq_zero]
  omega

/-- The `enumerate` comprehension in `fragment` building `Fragment`
records with monotonically increasing indices. -/
def enumFrags (fid total : Nat) : Nat → List (List Nat) → List Fragment
  | _, [] => []
  | i, c :: rest => ⟨fid, i, total, c⟩ :: enumFrags fid total (i + 1) rest

/-- `fragment` from `comms/protocol.py`. -/
def fragment (frame : List Nat) (frag_id : Nat) : List Fragment :=
  if frame.length ≤ MAX_LORA_PAYLOAD then
    [⟨frag_id, 0, 1, frame⟩]
  else
    let chunks := chunksOf frame
    enumFrags frag_id chunks.length 0 chunks

/-- State of `FragmentReassembler`: per-group fragment buffers keyed by
group id, expected totals, and first-seen timestamps. -/
structure FragmentReassembler where
  buffers : List (Nat × List (Nat × List Nat))
  totals : List (Nat × Nat)
  timestamps : List (Nat × ℚ)
  deriving Repr, DecidableEq

/-- Fresh reassembler from `FragmentReassembler.__init__`. -/
def FragmentReassembler.empty : FragmentReassembler := ⟨[], [], []⟩

/-- The generator `self._buffers[fid][i] for i in range(total)`: collect
the buffered data for each index, `none` on a missing key (`KeyError`). -/
def collectRange (buf : List (Nat × List Nat)) : List Nat →
    Option (List (List Nat))
  | [] => some []
  | i :: rest =>
      match alookup i buf, collectRange buf rest with
      | some d, some l => some (d :: l)
      | _, _ => none

/-- `FragmentReassembler.add`: returns the reassembled frame when the
last fragment of a group arrives, `none` while still waiting; a missing
dict key (impossible for well-formed fragment streams) surfaces as the
Python `KeyError`. `now` is `time.time()` at the call. -/
def FragmentReassembler.add (r : FragmentReassembler) (frag : Fragment)
    (now : ℚ) : Except String (Option (List Nat) × FragmentReassembler) :=
  let fid := frag.frag_id
  if frag.total_fragments = 1 then Except.ok (some frag.data, r)
  else
    let r1 :=
      if alookup fid r.buffers = none then
        { buffers := aset fid [] r.buffers
          totals := aset fid frag.total_fragments r.totals
          timestamps := aset fid now r.timestamps }
      else r
    let buf := (alookup fid r1.buffers).getD []
    let buf2 := aset frag.frag_index frag.data buf
    let r2 := { r1 with buffers := aset fid buf2 r1.buffers }
    match alookup fid r2.totals with
    | none => Except.error "KeyError: totals"
    | some total =>
        if buf2.length = total then
          match collectRange buf2 (List.range total) with
          | none => Except.error "KeyError: buffers"
          | some parts =>
              Except.ok (some parts.flatten,
                { buffers := aremove fid r2.buffers
                  totals := aremove fid r2.totals
                  timestamps := aremove fid r2.timestamps })
        else Except.ok (none, r2)

/-- Feed a list of fragments to the reassembler in order, collecting
each call's return value. -/
def addAll (r : FragmentReassembler) (l : List Fragment) (now : ℚ) :
    Except String (List (Option (List Nat)) × FragmentReassembler) :=
  match l with
  | [] => Except.ok ([], r)
  | f :: rest =>
      match r.add f now with
      | Except.error e => Except.error e
      | Except.ok (o, r1) =>
          match addAll r1 rest now with
          | Except.error e => Except.error e
          | Except.ok (os, r2) => Except.ok (o :: os, r2)

/-- Intermediate reassembler state while one fragment group `fid` with
expected total `n` is partially buffered. -/
def midState (fid n : Nat) (t0 : ℚ) (buf : List (Nat × List Nat)) :
    FragmentReassembler :=
  ⟨[(fid, buf)], [(fid, n)], [(fid, t0)]⟩

theorem aset_fresh {α : Type} (k : Nat) (v : α) (m : List (Nat × α))
    (h : alookup k m = none) : aset k v m = m ++ [(k, v)] := by
  induction m with
  | nil => rfl
  | cons p rest ih =>
      obtain ⟨a, b⟩ := p
      by_cases hak : a = k
      · simp [alookup, hak] at h
      · simp only [alookup] at h
        rw [if_neg hak] at h
        simp [aset, hak, ih h]

theorem alookup_map (l : List Nat) (g : Nat → List Nat) (i : Nat) :
    alookup i (l.map (fun k => (k, g k))) =
      if i ∈ l then some (g i) else none := by
  induction l with
  | nil => rfl
  | cons a rest ih =>
      by_cases hai : a = i
      · subst hai
        simp [alookup]
      · simp only [List.map_cons, alookup]
        rw [if_neg hai, ih]
        simp [List.mem_cons, Ne.symm hai]

theorem collectRange_eq (buf : List (Nat × List Nat)) (g : Nat → List Nat)
    (l : List Nat) (h : ∀ a ∈ l, alookup a buf = some (g a)) :
    collectRange buf l = some (l.map g) := by
  induction l with
  | nil => rfl
  | cons a t ih =>
      have ha := h a (List.mem_cons_self a t)
      have ht := ih (fun b hb => h b (List.mem_cons_of_mem a hb))
      simp [collectRange, ha, ht]

theorem range_map_getD (cs : List (List Nat)) :
    (List.range cs.length).map (fun i => cs.getD i []) = cs := by
  apply List.ext_get
  · simp
  · intro i h1 h2
    simp [List.getD_eq_getElem?_getD, List.getElem?_eq_getElem h2]

theorem mem_of_full (l : List Nat) (n : Nat) (hnd : l.Nodup)
    (hsub : ∀ x ∈ l, x < n) (hlen : l.length = n) : ∀ i < n, i ∈ l := by
  intro i hi
  have hsubset : l.toFinset ⊆ Finset.range n := by
    intro x hx
    rw [List.mem_toFinset] at hx
    exact Finset.mem_range.mpr (hsub x hx)
  have hcard : (Finset.range n).card ≤ l.toFinset.card := by
    rw [List.toFinset_card_of_nodup hnd, hlen, Finset.card_range]
  have heq := Finset.eq_of_subset_of_card_le hsubset hcard
  have : i ∈ l.toFinset := heq ▸ Finset.mem_range.mpr hi
  exact List.mem_toFinset.mp this

theorem chunksOf_nil : chunksOf [] = [] := by
  rw [chunksOf]
  simp

theorem chunksOf_flatten (l : List Nat) : (chunksOf l).flatten = l := by
  induction l using chunksOf.induct with
  | case1 =>
      rw [chunksOf_nil]
      rfl
  | case2 l hl ih =>
      rw [chunksOf, if_neg hl]
      simp only [List.flatten_cons, ih]
      exact List.take_append_drop _ l

theorem chunksOf_length (l : List Nat) :
    l ≠ [] → (chunksOf l).length = (l.length + 251) / 252 := by
  induction l using chunksOf.induct with
  | case1 => intro h; exact absurd rfl h
  | case2 l hl ih =>
      intro _
      have hmd : MAX_FRAGMENT_DATA = 252 := rfl
      rw [chunksOf, if_neg hl]
      have h0 : 0 < l.length := List.length_pos.mpr hl
      by_cases hlen : l.length ≤ 252
      · have hdrop : l.drop MAX_FRAGMENT_DATA = [] := by
          rw [← List.length_eq_zero, List.length_drop, hmd]
          omega
        rw [hdrop, chunksOf_nil]
        simp only [List.length_cons, List.length_nil]
        omega
      · have hne : l.drop MAX_FRAGMENT_DATA ≠ [] := by
          rw [← List.length_pos, List.length_drop, hmd]
          omega
        rw [List.length_cons, ih hne, List.length_drop, hmd]
        omega

theorem enumFrags_eq (fid t : Nat) (cs : List (List Nat)) (i : Nat) :
    enumFrags fid t i cs =
      (List.range cs.length).map
        (fun k => Fragment.mk fid (i + k) t (cs.getD k [])) := by
  induction cs generalizing i with
  | nil => rfl
  | cons c rest ih =>
      have hstep : enumFrags fid t i (c :: rest) =
          Fragment.mk fid i t c :: enumFrags fid t (i + 1) rest := rfl
      rw [hstep, ih (i + 1), List.length_cons, List.range_succ_eq_map,
        List.map_cons, List.map_map]
      congr 1
      simp only [Function.comp_def, List.getD_cons_succ]
      apply List.map_congr_left
      intro a _
      have : i + 1 + a = i + a.succ := by omega
      rw [this]

theorem add_empty_eval (fid n k : Nat) (now : ℚ) (dat : List Nat)
    (h1 : ¬ n = 1) (hn1 : ¬ (1 : Nat) = n) :
    FragmentReassembler.empty.add (Fragment.mk fid k n dat) now =
      Except.ok (none, midState fid n now [(k, dat)]) := by
  simp [FragmentReassembler.add, FragmentReassembler.empty, alookup, aset,
    midState, h1, hn1]

theorem add_midState_eval (fid n k : Nat) (t0 now : ℚ) (dat : List Nat)
    (buf : List (Nat × List Nat)) (h1 : ¬ n = 1)
    (hk : alookup k buf = none) :
    FragmentReassembler.add (midState fid n t0 buf) (Fragment.mk fid k n dat)
        now =
      (if (buf ++ [(k, dat)]).length = n then
        match collectRange (buf ++ [(k, dat)]) (List.range n) with
        | none => Except.error "KeyError: buffers"
        | some parts =>
            Except.ok (some parts.flatten, FragmentReassembler.empty)
      else Except.ok (none, midState fid n t0 (buf ++ [(k, dat)]))) := by
  simp [FragmentReassembler.add, FragmentReassembler.empty, midState, alookup,
    aset, aremove, h1, aset_fresh k dat buf hk]

theorem addAll_cons_ok (r r1 : FragmentReassembler) (f : Fragment)
    (l : List Fragment) (now : ℚ) (o : Option (List Nat))
    (h : r.add f now = Except.ok (o, r1)) :
    addAll r (f :: l) now =
      match addAll r1 l now with
      | Except.error e => Except.error e
      | Except.ok (os, r2) => Except.ok (o :: os, r2) := by
  simp only [addAll, h]

theorem addAll_midState (fid n : Nat) (t0 now : ℚ) (cs : List (List Nat))
    (hcs : cs.length = n) (h1 : ¬ n = 1) (rest : List Nat) :
    ∀ done : List Nat, rest ≠ [] →
      (done ++ rest).Nodup → (∀ x ∈ done ++ rest, x < n) →
      (done ++ rest).length = n →
      addAll (midState fid n t0 (done.map (fun j => (j, cs.getD j []))))
          (rest.map (fun k => Fragment.mk fid k n (cs.getD k []))) now =
        Except.ok
          (List.replicate (rest.length - 1) none ++ [some cs.flatten],
           FragmentReassembler.empty) := by
  induction rest with
  | nil => intro done h _ _ _; exact absurd rfl h
  | cons k rest2 ih =>
      intro done _ hnd hsub hlen
      have hkdone : k ∉ done := by
        intro hk
        have := List.Nodup.of_append_left hnd
        have hdisj := List.disjoint_of_nodup_append hnd
        exact hdisj hk (List.mem_cons_self k rest2)
      have hkbuf :
          alookup k (done.map (fun j => (j, cs.getD j []))) = none := by
        rw [alookup_map]
        simp [hkdone]
      rw [List.map_cons]
      have hmaplen :
          (done.map (fun j => (j, cs.getD j []))).length = done.length :=
        List.length_map _ _
      have hlen2 : done.length + (rest2.length + 1) = n := by
        simpa [List.length_append] using hlen
      have hbufeq :
          done.map (fun j => (j, cs.getD j [])) ++ [(k, cs.getD k [])] =
            (done ++ [k]).map (fun j => (j, cs.getD j [])) := by
        simp
      by_cases hfin : rest2 = []
      · subst hfin
        have hb2 :
            (done.map (fun j => (j, cs.getD j [])) ++
              [(k, cs.getD k [])]).length = n := by
          simp only [List.length_nil] at hlen2
          simp only [List.length_append, hmaplen, List.length_cons,
            List.length_nil]
          omega
        have hcover : ∀ i < n, i ∈ done ++ [k] :=
          mem_of_full (done ++ [k]) n hnd hsub (by simpa using hlen)
        have hcollect :
            collectRange
              (done.map (fun j => (j, cs.getD j [])) ++ [(k, cs.getD k [])])
              (List.range n) =
              some ((List.range n).map (fun i => cs.getD i [])) := by
          apply collectRange_eq
          intro i hi
          rw [hbufeq, alookup_map]
          rw [if_pos (hcover i (List.mem_range.mp hi))]
        have hrange : (List.range n).map (fun i => cs.getD i []) = cs := by
          rw [← hcs]
          exact range_map_getD cs
        have hadd :
            FragmentReassembler.add
                (midState fid n t0 (done.map (fun j => (j, cs.getD j []))))
                (Fragment.mk fid k n (cs.getD k [])) now =
              Except.ok (some cs.flatten, FragmentReassembler.empty) := by
          rw [add_midState_eval fid n k t0 now _ _ h1 hkbuf, if_pos hb2,
            hcollect, hrange]
        rw [addAll_cons_ok _ _ _ _ _ _ hadd]
        rfl
      · have hb2 :
            ¬ (done.map (fun j => (j, cs.getD j [])) ++
              [(k, cs.getD k [])]).length = n := by
          simp only [List.length_append, hmaplen, List.length_cons,
            List.length_nil]
          have : 0 < rest2.length := List.length_pos.mpr hfin
          omega
        have hassoc : done ++ k :: rest2 = (done ++ [k]) ++ rest2 := by
          simp
        have ih2 := ih (done ++ [k]) hfin (by rw [← hassoc]; exact hnd)
          (by rw [← hassoc]; exact hsub) (by rw [← hassoc]; exact hlen)
        have hadd :
            FragmentReassembler.add
                (midState fid n t0 (done.map (fun j => (j, cs.getD j []))))
                (Fragment.mk fid k n (cs.getD k [])) now =
              Except.ok (none, midState fid n t0
                ((done ++ [k]).map (fun j => (j, cs.getD j [])))) := by
          rw [add_midState_eval fid n k t0 now _ _ h1 hkbuf, if_neg hb2,
            hbufeq]
        have hr2 : (rest2.length - 1) + 1 = rest2.length :=
          Nat.succ_pred_eq_of_pos (List.length_pos.mpr hfin)
        have hrepl :
            (none : Option (List Nat)) ::
              (List.replicate (rest2.length - 1) none ++ [some cs.flatten]) =
              List.replicate ((k :: rest2).length - 1) none ++
                [some cs.flatten] := by
          rw [List.length_cons, Nat.add_sub_cancel, ← hr2,
            List.replicate_succ, List.cons_append, hr2]
        rw [addAll_cons_ok _ _ _ _ _ _ hadd, ih2, ← hrepl]

theorem addAll_perm_range (fid n : Nat) (now : ℚ) (cs : List (List Nat))
    (hcs : cs.length = n) (h2 : 2 ≤ n) (is : List Nat)
    (hperm : is.Perm (List.range n)) :
    addAll FragmentReassembler.empty
        (is.map (fun k => Fragment.mk fid k n (cs.getD k []))) now =
      Except.ok (List.replicate (is.length - 1) none ++ [some cs.flatten],
                 FragmentReassembler.empty) := by
  have hlen : is.length = n := by rw [hperm.length_eq, List.length_range]
  have hnd : is.Nodup := hperm.nodup_iff.mpr (List.nodup_range n)
  have hsub : ∀ x ∈ is, x < n := fun x hx =>
    List.mem_range.mp (hperm.mem_iff.mp hx)
  cases is with
  | nil =>
      rw [List.length_nil] at hlen
      omega
  | cons k rest =>
      rw [List.map_cons]
      have h1 : ¬ n = 1 := by omega
      have hn1 : ¬ (1 : Nat) = n := by omega
      have hfirst := add_empty_eval fid n k now (cs.getD k []) h1 hn1
      rw [addAll_cons_ok _ _ _ _ _ _ hfirst]
      have hrest_ne : rest ≠ [] := by
        intro h
        subst h
        rw [List.length_cons, List.length_nil] at hlen
        omega
      have hbuf1 : [(k, cs.getD k [])] =
          [k].map (fun j => (j, cs.getD j [])) := by simp
      rw [hbuf1]
      have hmid := addAll_midState fid n now now cs hcs h1 rest [k] hrest_ne
        (by simpa using hnd) (by simpa using hsub) (by simpa using hlen)
      rw [hmid]
      have hr2 : (rest.length - 1) + 1 = rest.length :=
        Nat.succ_pred_eq_of_pos (List.length_pos.mpr hrest_ne)
      have hrepl :
          (none : Option (List Nat)) ::
            (List.replicate (rest.length - 1) none ++ [some cs.flatten]) =
            List.replicate ((k :: rest).length - 1) none ++
              [some cs.flatten] := by
        rw [List.length_cons, Nat.add_sub_cancel, ← hr2,
          List.replicate_succ, List.cons_append, hr2]
      rw [← hrepl]

end Protocol

/-! ## bench_ui/views.py — system_api_command -/

namespace BenchUI

/-- The simulated field devices that `system_api_command` manipulates
and that the pump interlocks read. -/
inductive Dev
  | SV1 | BVBP | L1 | L2 | L3 | P01 | DUT
  deriving Repr, DecidableEq

/-- Whether a device is in the `valve` category. -/
def Dev.isValve : Dev → Bool
  | Dev.SV1 | Dev.BVBP | Dev.L1 | Dev.L2 | Dev.L3 => true
  | _ => false

/-- The slice of `_sim_states` the command handler reads and writes:
valve states (`'open'`/`'closed'`), the DUT connection state, the pump
state (`'running'`/`'stopped'`) with its frequency, and the reservoir
level sensor value. -/
structure SimStates where
  sv1 : String
  bvbp : String
  l1 : String
  l2 : String
  l3 : String
  dut : String
  pumpState : String
  pumpFreq : ℚ
  resLvl : ℚ
  deriving Repr, DecidableEq

/-- Read a valve device's state string. -/
def valveState (st : SimStates) : Dev → String
  | Dev.SV1 => st.sv1
  | Dev.BVBP => st.bvbp
  | Dev.L1 => st.l1
  | Dev.L2 => st.l2
  | Dev.L3 => st.l3
  | _ => ""

/-- Write a valve device's state string. -/
def setValveState (st : SimStates) (d : Dev) (v : String) : SimStates :=
  match d with
  | Dev.SV1 => { st with sv1 := v }
  | Dev.BVBP => { st with bvbp := v }
  | Dev.L1 => { st with l1 := v }
  | Dev.L2 => { st with l2 := v }
  | Dev.L3 => { st with l3 := v }
  | _ => st

/-- Outcome of the HTTP handler: success or a 4xx error response. -/
inductive Resp
  | ok
  | error (msg : String)
  deriving Repr, DecidableEq

/-- The device-command core of `system_api_command` in
`bench_ui/views.py` (valve, pump and meter categories), acting on the
simulated states. `bodyFreq` is the optional `frequency` field of the
request body used by the pump `start` action. -/
def apiCommand (st : SimStates) (dev : Dev) (action : String)
    (bodyFreq : Option ℚ) : SimStates × Resp :=
  if dev.isValve then
    let cur := valveState st dev
    let new_state :=
      if action = "toggle" then (if cur = "closed" then "open" else "closed")
      else if action = "open" ∨ action = "close" then
        (if action = "close" then "closed" else "open")
      else cur
    if dev = Dev.SV1 ∧ new_state = "open" ∧ st.dut ≠ "connected" then
      (st, Resp.error "Cannot open SV1: no meter installed. Confirm MUT presence first.")
    else if dev = Dev.SV1 ∧ new_state = "open" ∧
        ¬ (st.l1 = "open" ∨ st.l2 = "open" ∨ st.l3 = "open") then
      (st, Resp.error "Cannot open SV1: no test lane open. Open at least one lane valve (BV-L1/L2/L3) first.")
    else
      let st1 := setValveState st dev new_state
      let st2 :=
        if (dev = Dev.SV1 ∨ dev = Dev.BVBP) ∧ new_state = "closed" ∧
            st1.pumpState = "running" ∧ st1.sv1 ≠ "open" ∧ st1.bvbp ≠ "open"
        then { st1 with pumpState := "stopped", pumpFreq := 0 }
        else st1
      (st2, Resp.ok)
  else if dev = Dev.P01 then
    let hasFlow := st.sv1 = "open" ∨ st.bvbp = "open"
    let tankOk := 70 ≤ st.resLvl
    if action = "toggle" then
      if st.pumpState = "stopped" then
        if ¬ tankOk then
          (st, Resp.error "Cannot start pump: reservoir level below 70%. Minimum 70% required.")
        else if ¬ hasFlow then
          (st, Resp.error "Cannot start pump: no flow path open. Open SV1 (main line) or BV-BP (bypass) first.")
        else ({ st with pumpState := "running", pumpFreq := 30 }, Resp.ok)
      else ({ st with pumpState := "stopped", pumpFreq := 0 }, Resp.ok)
    else if action = "start" then
      if ¬ tankOk then
        (st, Resp.error "Cannot start pump: reservoir level below 70%. Minimum 70% required.")
      else if ¬ hasFlow then
        (st, Resp.error "Cannot start pump: no flow path open. Open SV1 (main line) or BV-BP (bypass) first.")
      else ({ st with pumpState := "running", pumpFreq := bodyFreq.getD 30 },
            Resp.ok)
    else if action = "stop" then
      ({ st with pumpState := "stopped", pumpFreq := 0 }, Resp.ok)
    else (st, Resp.ok)
  else
    let newDut :=
      if action = "toggle" then
        (if st.dut = "disconnected" then "connected" else "disconnected")
      else if action = "connect" then "connected"
      else if action = "disconnect" then "disconnected"
      else st.dut
    let st1 := { st with dut := newDut }
    let st2 :=
      if newDut = "disconnected" ∧ st1.sv1 = "open" then
        let st3 := { st1 with sv1 := "closed" }
        if st3.pumpState = "running" ∧ st3.bvbp ≠ "open" then
          { st3 with pumpState := "stopped", pumpFreq := 0 }
        else st3
      else st1
    (st2, Resp.ok)

end BenchUI

/-! ## B1 controller/safety_monitor.py -/

namespace Safety

/-- Alarm codes from `controller/safety_monitor.py` (`AlarmCode`). -/
inductive AlarmCode
  | OVERPRESSURE | LOW_RESERVOIR | TEMP_HIGH | TEMP_LOW | SCALE_OVERLOAD
  | ESTOP_ACTIVE | CONTACTOR_TRIP | MCB_TRIP | VFD_FAULT
  deriving Repr, DecidableEq

/-- The fields of `SensorSnapshot` read by the safety checks
(`controller/sensor_manager.py`). -/
structure SensorSnapshot where
  pressure_upstream_bar : ℚ := 0
  reservoir_level_pct : ℚ := 0
  water_temp_c : ℚ := 0
  weight_raw_kg : ℚ := 0
  estop_active : Bool := false
  contactor_on : Bool := true
  mcb_on : Bool := true
  vfd_fault : Int := 0
  b2_vfd_online : Bool := false
  b4_scale_online : Bool := false
  b5_gpio_online : Bool := false
  b6_tank_online : Bool := false
  deriving Repr, DecidableEq

/-- Safety limits loaded from settings in `SafetyMonitor.__init__`. -/
structure Limits where
  pressure_max : ℚ := 8
  reservoir_min : ℚ := 20
  scale_max : ℚ := 180
  temp_min : ℚ := 5
  temp_max : ℚ := 40
  deriving Repr, DecidableEq

/-- Alarm-code list computed by `SafetyMonitor._check_all` — the periodic
check, each condition gated by its per-bridge online flag. -/
def checkAll (lim : Limits) (snap : SensorSnapshot) : List AlarmCode :=
  (if snap.b4_scale_online ∧ lim.pressure_max < snap.pressure_upstream_bar
   then [AlarmCode.OVERPRESSURE] else []) ++
  (if snap.b6_tank_online ∧ snap.reservoir_level_pct < lim.reservoir_min
   then [AlarmCode.LOW_RESERVOIR] else []) ++
  (if snap.b6_tank_online ∧ lim.temp_max < snap.water_temp_c
   then [AlarmCode.TEMP_HIGH] else []) ++
  (if snap.b6_tank_online ∧ snap.water_temp_c < lim.temp_min
   then [AlarmCode.TEMP_LOW] else []) ++
  (if snap.b4_scale_online ∧ lim.scale_max < snap.weight_raw_kg
   then [AlarmCode.SCALE_OVERLOAD] else []) ++
  (if snap.b5_gpio_online ∧ snap.estop_active
   then [AlarmCode.ESTOP_ACTIVE] else []) ++
  (if snap.b5_gpio_online ∧ ¬ snap.contactor_on
   then [AlarmCode.CONTACTOR_TRIP] else []) ++
  (if snap.b5_gpio_online ∧ ¬ snap.mcb_on
   then [AlarmCode.MCB_TRIP] else []) ++
  (if snap.b2_vfd_online ∧ snap.vfd_fault ≠ 0
   then [AlarmCode.VFD_FAULT] else [])

/-- Alarm-code list computed by `SafetyMonitor.check_snapshot` — the pure
pre-flight variant; its conditions carry no online-flag guards. -/
def check_snapshot (lim : Limits) (snap : SensorSnapshot) : List AlarmCode :=
  (if lim.pressure_max < snap.pressure_upstream_bar
   then [AlarmCode.OVERPRESSURE] else []) ++
  (if snap.reservoir_level_pct < lim.reservoir_min
   then [AlarmCode.LOW_RESERVOIR] else []) ++
  (if lim.temp_max < snap.water_temp_c
   then [AlarmCode.TEMP_HIGH] else []) ++
  (if snap.water_temp_c < lim.temp_min
   then [AlarmCode.TEMP_LOW] else []) ++
  (if lim.scale_max < snap.weight_raw_kg
   then [AlarmCode.SCALE_OVERLOAD] else []) ++
  (if snap.estop_active then [AlarmCode.ESTOP_ACTIVE] else []) ++
  (if ¬ snap.contactor_on then [AlarmCode.CONTACTOR_TRIP] else []) ++
  (if ¬ snap.mcb_on then [AlarmCode.MCB_TRIP] else []) ++
  (if snap.vfd_fault ≠ 0 then [AlarmCode.VFD_FAULT] else [])

/-- All per-bridge online flags of the snapshot are false. -/
def allBridgesOffline (snap : SensorSnapshot) : Bool :=
  !snap.b2_vfd_online && !snap.b4_scale_online &&
  !snap.b5_gpio_online && !snap.b6_tank_online

/-- The online flag that gates a given alarm code in `_check_all`. -/
def bridgeFlag (snap : SensorSnapshot) : AlarmCode → Bool
  | AlarmCode.OVERPRESSURE => snap.b4_scale_online
  | AlarmCode.LOW_RESERVOIR => snap.b6_tank_online
  | AlarmCode.TEMP_HIGH => snap.b6_tank_online
  | AlarmCode.TEMP_LOW => snap.b6_tank_online
  | AlarmCode.SCALE_OVERLOAD => snap.b4_scale_online
  | AlarmCode.ESTOP_ACTIVE => snap.b5_gpio_online
  | AlarmCode.CONTACTOR_TRIP => snap.b5_gpio_online
  | AlarmCode.MCB_TRIP => snap.b5_gpio_online
  | AlarmCode.VFD_FAULT => snap.b2_vfd_online

/-- An all-bridges-offline snapshot whose raw readings would trip every
check: pressure 100 bar, empty reservoir, 100 C water, 999 kg on the
scale, E-stop pressed, contactor and MCB dropped, VFD fault 3. -/
def offlineBadSnap : SensorSnapshot :=
  { pressure_upstream_bar := 100
    reservoir_level_pct := 0
    water_temp_c := 100
    weight_raw_kg := 999
    estop_active := true
    contactor_on := false
    mcb_on := false
    vfd_fault := 3
    b2_vfd_online := false
    b4_scale_online := false
    b5_gpio_online := false
    b6_tank_online := false }

end Safety

/-! ## controller/valve_controller.py -/

namespace Valves

/-- The six controllable valves (`ALL_VALVES` in
`controller/valve_controller.py`). -/
inductive Valve
  | SV1 | BVL1 | BVL2 | BVL3 | SVDRN | BVBP
  deriving Repr, DecidableEq

/-- `LANE_VALVES`: the mutual-exclusion group BV-L1/L2/L3. -/
def LANE_VALVES : List Valve := [Valve.BVL1, Valve.BVL2, Valve.BVL3]

/-- `ALL_VALVES` iteration order used by `close_all`. -/
def ALL_VALVES : List Valve :=
  [Valve.SV1, Valve.BVL1, Valve.BVL2, Valve.BVL3, Valve.SVDRN, Valve.BVBP]

/-- Whether a valve belongs to the lane mutual-exclusion group. -/
def Valve.isLane (v : Valve) : Bool := decide (v ∈ LANE_VALVES)

/-- Local state tracked by `ValveController` (simulator backend):
`_valve_states`, `_diverter`, `_active_lane`. -/
structure VCState where
  valveStates : Valve → Bool
  diverter : String
  activeLane : Option Valve

/-- Initial all-closed state from `ValveController.__init__`. -/
def VCState.init : VCState := ⟨fun _ => false, "BYPASS", none⟩

/-- Pointwise update of the valve-state map. -/
def setValve (f : Valve → Bool) (v : Valve) (b : Bool) : Valve → Bool :=
  fun w => if w = v then b else f w

/-- `_actuate_valve` in simulator mode: always succeeds and records the
new state. -/
def actuate (s : VCState) (v : Valve) (b : Bool) : VCState :=
  { s with valveStates := setValve s.valveStates v b }

/-- One iteration of the mutual-exclusion loop at the top of
`open_valve`: close `lv` if it differs from the requested valve and is
currently open. -/
def closeLaneStep (st : VCState) (v lv : Valve) : VCState :=
  if lv ≠ v ∧ st.valveStates lv = true then actuate st lv false else st

/-- The mutual-exclusion loop at the top of `open_valve`: close every
other lane valve that is currently open. -/
def closeOtherLanes (s : VCState) (v : Valve) : VCState :=
  LANE_VALVES.foldl (fun st lv => closeLaneStep st v lv) s

/-- `ValveController.open_valve` (simulator backend). -/
def open_valve (s : VCState) (v : Valve) : VCState :=
  if v.isLane then
    let s1 := closeOtherLanes s v
    let s2 := { s1 with activeLane := some v }
    actuate s2 v true
  else actuate s v true

/-- `ValveController.close_valve`. -/
def close_valve (s : VCState) (v : Valve) : VCState :=
  let s1 := if v.isLane ∧ s.activeLane = some v
            then { s with activeLane := none } else s
  actuate s1 v false

/-- `ValveController.close_all`. -/
def close_all (s : VCState) : VCState :=
  let s1 := ALL_VALVES.foldl (fun st v => actuate st v false) s
  { s1 with diverter := "BYPASS", activeLane := none }

/-- `SIZE_TO_LANE` dictionary lookup. -/
def SIZE_TO_LANE (sz : String) : Option Valve :=
  if sz = "DN25" then some Valve.BVL1
  else if sz = "DN20" then some Valve.BVL2
  else if sz = "DN15" then some Valve.BVL3
  else none

/-- `LANE_MAP` dictionary lookup. -/
def LANE_MAP (l : String) : Option Valve :=
  if l = "1" then some Valve.BVL1
  else if l = "1_inch" then some Valve.BVL1
  else if l = "3/4" then some Valve.BVL2
  else if l = "3/4_inch" then some Valve.BVL2
  else if l = "1/2" then some Valve.BVL3
  else if l = "1/2_inch" then some Valve.BVL3
  else none

/-- Direct valve-name membership in `LANE_VALVES`. -/
def laneValveOfName (n : String) : Option Valve :=
  if n = "BV-L1" then some Valve.BVL1
  else if n = "BV-L2" then some Valve.BVL2
  else if n = "BV-L3" then some Valve.BVL3
  else none

/-- `ValveController.select_lane`: resolve the argument and open the
lane valve; unresolvable names leave the state unchanged. -/
def select_lane (s : VCState) (name : String) : VCState :=
  match SIZE_TO_LANE name <|> LANE_MAP name <|> laneValveOfName name with
  | some v => open_valve s v
  | none => s

/-- `ValveController.set_diverter`. -/
def set_diverter (s : VCState) (pos : String) : VCState :=
  if pos = "COLLECT" ∨ pos = "BYPASS" then { s with diverter := pos } else s

/-- One public `ValveController` operation. -/
inductive Op
  | openV (v : Valve)
  | closeV (v : Valve)
  | closeAll
  | selectLane (name : String)
  | setDiverter (pos : String)

/-- Execute one operation. -/
def run (s : VCState) : Op → VCState
  | Op.openV v => open_valve s v
  | Op.closeV v => close_valve s v
  | Op.closeAll => close_all s
  | Op.selectLane n => select_lane s n
  | Op.setDiverter p => set_diverter s p

/-- Execute a sequence of operations. -/
def runOps (s : VCState) (ops : List Op) : VCState := ops.foldl run s

/-- At most one lane valve is open. -/
def atMostOneLane (s : VCState) : Prop :=
  ∀ v w : Valve, v.isLane = true → w.isLane = true →
    s.valveStates v = true → s.valveStates w = true → v = w

theorem closeLaneStep_states (st : VCState) (v lv w : Valve) :
    (closeLaneStep st v lv).valveStates w =
      if w = lv ∧ lv ≠ v then false else st.valveStates w := by
  simp only [closeLaneStep, actuate, setValve]
  split_ifs <;> simp_all [setValve]

theorem closeOtherLanes_states (s : VCState) (v w : Valve) :
    (closeOtherLanes s v).valveStates w =
      if w ≠ v ∧ w.isLane = true then false else s.valveStates w := by
  have heq : closeOtherLanes s v =
      closeLaneStep (closeLaneStep (closeLaneStep s v Valve.BVL1)
        v Valve.BVL2) v Valve.BVL3 := rfl
  rw [heq, closeLaneStep_states, closeLaneStep_states, closeLaneStep_states]
  cases v <;> cases w <;> simp [Valve.isLane, LANE_VALVES]

theorem open_valve_lane_excl (s : VCState) (v : Valve)
    (hv : v.isLane = true) :
    (open_valve s v).valveStates v = true ∧
    ∀ lv : Valve, lv.isLane = true → lv ≠ v →
      (open_valve s v).valveStates lv = false := by
  unfold open_valve
  rw [hv]
  simp only [if_true, actuate, setValve]
  constructor
  · simp
  · intro lv hlv hne
    have := closeOtherLanes_states s v lv
    simp only [hne, hlv, ne_eq, not_false_iff, and_self, if_true] at this
    simp [hne, this]

theorem open_valve_nonlane_states (s : VCState) (v w : Valve)
    (hv : v.isLane = false) (hw : w.isLane = true) :
    (open_valve s v).valveStates w = s.valveStates w := by
  unfold open_valve
  rw [hv]
  have hne : w ≠ v := fun h => by rw [h] at hw; exact absurd (hv ▸ hw) (by simp)
  simp [actuate, setValve, hne]

theorem close_valve_states (s : VCState) (v w : Valve) :
    (close_valve s v).valveStates w =
      if w = v then false else s.valveStates w := by
  unfold close_valve actuate setValve
  by_cases hc : v.isLane = true ∧ s.activeLane = some v <;> simp [hc]

theorem close_all_states (s : VCState) (w : Valve) :
    (close_all s).valveStates w = false := by
  cases w <;>
    simp [close_all, ALL_VALVES, List.foldl, actuate, setValve]

theorem resolve_isLane (name : String) (v : Valve)
    (h : (SIZE_TO_LANE name <|> LANE_MAP name <|> laneValveOfName name)
           = some v) :
    v.isLane = true := by
  unfold SIZE_TO_LANE LANE_MAP laneValveOfName at h
  split_ifs at h <;> simp_all [Option.orElse] <;>
    subst h <;> decide

theorem run_preserves_atMostOneLane (s : VCState) (op : Op)
    (h : atMostOneLane s) : atMostOneLane (run s op) := by
  cases op with
  | openV v =>
      cases hv : v.isLane with
      | true =>
          intro a b ha hb hao hbo
          obtain ⟨hvo, hother⟩ := open_valve_lane_excl s v hv
          by_cases hav : a = v
          · by_cases hbv : b = v
            · rw [hav, hbv]
            · exact absurd hbo (by simp [run, hother b hb hbv])
          · exact absurd hao (by simp [run, hother a ha hav])
      | false =>
          intro a b ha hb hao hbo
          rw [run, open_valve_nonlane_states s v a hv ha] at hao
          rw [run, open_valve_nonlane_states s v b hv hb] at hbo
          exact h a b ha hb hao hbo
  | closeV v =>
      intro a b ha hb hao hbo
      simp only [run, close_valve_states] at hao hbo
      by_cases hav : a = v
      · rw [if_pos hav] at hao
        exact absurd hao (by simp)
      · rw [if_neg hav] at hao
        by_cases hbv : b = v
        · rw [if_pos hbv] at hbo
          exact absurd hbo (by simp)
        · rw [if_neg hbv] at hbo
          exact h a b ha hb hao hbo
  | closeAll =>
      intro a b ha hb hao hbo
      rw [run, close_all_states] at hao
      exact absurd hao (by simp)
  | selectLane n =>
      cases hres : (SIZE_TO_LANE n <|> LANE_MAP n <|> laneValveOfName n) with
      | some v =>
          have hv := resolve_isLane n v hres
          intro a b ha hb hao hbo
          obtain ⟨hvo, hother⟩ := open_valve_lane_excl s v hv
          simp only [run, select_lane, hres] at hao hbo
          by_cases hav : a = v
          · by_cases hbv : b = v
            · rw [hav, hbv]
            · exact absurd hbo (by simp [hother b hb hbv])
          · exact absurd hao (by simp [hother a ha hav])
      | none =>
          simpa only [run, select_lane, hres] using h
  | setDiverter p =>
      intro a b ha hb hao hbo
      simp only [run, set_diverter] at hao hbo
      split_ifs at hao hbo <;> exact h a b ha hb hao hbo

theorem runOps_preserves (s : VCState) (ops : List Op)
    (h : atMostOneLane s) : atMostOneLane (runOps s ops) := by
  induction ops generalizing s with
  | nil => exact h
  | cons op rest ih =>
      exact ih (run s op) (run_preserves_atMostOneLane s op h)

end Valves

/-! ## controller/pid_controller.py -/

namespace PID

/-- PID configuration from `PIDController.__init__` (gains, output
range, sample rate, stability window length). -/
structure Cfg where
  kp : ℚ := 1/2
  ki : ℚ := 1/10
  kd : ℚ := 1/20
  output_min : ℚ := 5
  output_max : ℚ := 50
  sample_rate : ℚ := 1/5
  stability_count : Nat := 5
  deriving Repr, DecidableEq

/-- Mutable internal state of `PIDController`. -/
structure St where
  target : ℚ := 0
  enabled : Bool := false
  manualOutput : Option ℚ := none
  integral : ℚ := 0
  prevMeasurement : ℚ := 0
  prevError : ℚ := 0
  output : ℚ := 0
  lastTime : ℚ := 0
  errorHistory : List ℚ := []
  deriving Repr, DecidableEq

/-- Append to the `deque(maxlen=stability_count)` error history. -/
def pushHistory (count : Nat) (h : List ℚ) (x : ℚ) : List ℚ :=
  let h2 := h ++ [x]
  if count < h2.length then h2.drop (h2.length - count) else h2

/-- `PIDController.compute` from `controller/pid_controller.py`:
returns the output frequency and the updated internal state.  `now` is
the value of `time.time()` at the call. -/
def compute (cfg : Cfg) (s : St) (measured_lph now : ℚ) : ℚ × St :=
  if ¬ s.enabled then (0, s)
  else
    match s.manualOutput with
    | some m =>
        let out := max cfg.output_min (min cfg.output_max m)
        (out, { s with output := out })
    | none =>
        let dt0 := if 0 < s.lastTime then now - s.lastTime else cfg.sample_rate
        let dt := max dt0 (1/1000)
        let error := s.target - measured_lph
        let p_term := cfg.kp * error
        let integral1 := s.integral + error * dt
        let i_term1 := cfg.ki * integral1
        let test_output := p_term + i_term1
        let integral2 :=
          if cfg.output_max < test_output then
            (if cfg.ki ≠ 0 then (cfg.output_max - p_term) / cfg.ki else 0)
          else if test_output < cfg.output_min ∧ 0 < s.target then
            (if cfg.ki ≠ 0 then (cfg.output_min - p_term) / cfg.ki else 0)
          else integral1
        let i_term2 := cfg.ki * integral2
        let d_measurement := (measured_lph - s.prevMeasurement) / dt
        let d_term := -cfg.kd * d_measurement
        let output0 := p_term + i_term2 + d_term
        let output :=
          if s.target ≤ 0 then 0
          else max cfg.output_min (min cfg.output_max output0)
        let hist :=
          if 0 < s.target then
            pushHistory cfg.stability_count s.errorHistory
              (|error / s.target| * 100)
          else s.errorHistory
        (output,
         { s with
           integral := integral2
           prevMeasurement := measured_lph
           prevError := error
           output := output
           lastTime := now
           errorHistory := hist })

/-- Concrete enabled state with a positive target, used as witness. -/
def autoSt : St := { enabled := true, target := 500 }

/-- Concrete enabled state with an out-of-range manual override. -/
def manualSt : St := { enabled := true, target := 500, manualOutput := some 999 }

end PID

/-! ## B1 comms/message_queue.py — receive path -/

namespace MsgQueue

/-- `MessageStatus` from `comms/message_queue.py`. -/
inductive MessageStatus
  | PENDING | SENT | ACKED | FAILED | QUEUED
  deriving Repr, DecidableEq

/-- The fields of `OutgoingMessage` touched by ACK handling; the
`ack_received` event is modelled as a Bool that is true once set. -/
structure OutgoingMessage where
  msg_id : Nat
  status : MessageStatus
  seq : Nat
  ackReceived : Bool
  deriving Repr, DecidableEq

/-- The payload fields `receive_frame` inspects on a decoded frame:
the `command` string, the truthiness of the optional `ack` field, and
the optional `ack_seq` number. -/
structure RxPayload where
  command : String
  ack : Bool
  ack_seq : Option Nat
  deriving Repr, DecidableEq

/-- Python `str.endswith`. -/
def strEndsWith (s suffix : String) : Bool :=
  decide (suffix.data.length ≤ s.data.length) &&
  decide (s.data.drop (s.data.length - suffix.data.length) = suffix.data)

/-- Where `receive_frame` sends a decoded, replay-accepted frame. -/
inductive Routed
  | toAckHandler (ackSeq : Nat)
  | toReceiveHandler
  deriving Repr, DecidableEq

/-- The routing logic at the end of `MessageQueue.receive_frame`: a
frame is treated as an ACK only when (`command` ends in `_ACK` or the
`ack` field is truthy) *and* `ack_seq` is non-null; otherwise it is
dispatched to the registered receive handler. -/
def receive_dispatch (p : RxPayload) : Routed :=
  if strEndsWith p.command "_ACK" || p.ack then
    match p.ack_seq with
    | some a => Routed.toAckHandler a
    | none => Routed.toReceiveHandler
  else Routed.toReceiveHandler

/-- Lookup in the `pending_acks` dict (seq → message). -/
def lookupMsg (k : Nat) : List (Nat × OutgoingMessage) → Option OutgoingMessage
  | [] => none
  | (a, m) :: rest => if a = k then some m else lookupMsg k rest

/-- `dict.pop(k, None)`: remove the entry and return it. -/
def popMsg (k : Nat) :
    List (Nat × OutgoingMessage) →
      List (Nat × OutgoingMessage) × Option OutgoingMessage
  | [] => ([], none)
  | (a, m) :: rest =>
      if a = k then (rest, some m)
      else
        let r := popMsg k rest
        ((a, m) :: r.1, r.2)

/-- `MessageQueue._handle_ack`: pop the pending entry for `ack_seq`;
when present, mark it ACKED and set its completion event.  Returns the
remaining `pending_acks` and the updated message, if any. -/
def handle_ack (pending : List (Nat × OutgoingMessage)) (ack_seq : Nat) :
    List (Nat × OutgoingMessage) × Option OutgoingMessage :=
  let r := popMsg ack_seq pending
  match r.2 with
  | some msg =>
      (r.1, some { msg with status := MessageStatus.ACKED, ackReceived := true })
  | none => (r.1, none)

theorem lookupMsg_eq_none_of_not_mem (k : Nat)
    (l : List (Nat × OutgoingMessage)) (h : k ∉ l.map Prod.fst) :
    lookupMsg k l = none := by
  induction l with
  | nil => rfl
  | cons p rest ih =>
      obtain ⟨a, m⟩ := p
      simp only [List.map_cons, List.mem_cons] at h
      push_neg at h
      simp only [lookupMsg]
      rw [if_neg (Ne.symm h.1)]
      exact ih h.2

theorem popMsg_found (k : Nat) (l : List (Nat × OutgoingMessage))
    (msg : OutgoingMessage) (h : lookupMsg k l = some msg) :
    (popMsg k l).2 = some msg := by
  induction l with
  | nil => exact Option.noConfusion h
  | cons p rest ih =>
      obtain ⟨a, m⟩ := p
      by_cases hak : a = k
      · simp only [lookupMsg, hak, if_pos] at h
        simp [popMsg, hak, h]
      · simp only [lookupMsg, hak, if_neg, not_false_iff] at h
        simp [popMsg, hak, ih h]

theorem popMsg_removes (k : Nat) (l : List (Nat × OutgoingMessage))
    (hnd : (l.map Prod.fst).Nodup) :
    lookupMsg k (popMsg k l).1 = none := by
  induction l with
  | nil => rfl
  | cons p rest ih =>
      obtain ⟨a, m⟩ := p
      simp only [List.map_cons, List.nodup_cons] at hnd
      by_cases hak : a = k
      · subst hak
        simp only [popMsg, if_pos]
        exact lookupMsg_eq_none_of_not_mem a rest hnd.1
      · simp only [popMsg, hak, if_neg, not_false_iff]
        simp only [lookupMsg, hak, if_neg, not_false_iff]
        exact ih hnd.2

end MsgQueue

/-! ## Theorems for claims C2, C9, C10 -/

/-- C2: with a recorded last sequence `last` for the device,
`check_and_update` accepts iff `(s − last) mod 2^16 ∈ [1, 32768]` and
`|now − ts| ≤ 300`; on accept the recorded sequence becomes `s`, on
reject the state is unchanged. -/
theorem C2_replay_protection (sc : Protocol.SequenceCounter)
    (d s : Nat) (ts now : Int) (last : Nat)
    (hlast : Protocol.lookupAssoc d sc.lastReceived = some last) :
    ((sc.check_and_update d s ts now).1 = true ↔
       (1 ≤ ((s : Int) - last) % 65536 ∧ ((s : Int) - last) % 65536 ≤ 32768 ∧
        (now - ts).natAbs ≤ 300)) ∧
    ((sc.check_and_update d s ts now).1 = true →
       Protocol.lookupAssoc d (sc.check_and_update d s ts now).2.lastReceived =
         some s) ∧
    ((sc.check_and_update d s ts now).1 = false →
       (sc.check_and_update d s ts now).2 = sc) := by
  have hnn : (0 : Int) ≤ ((s : Int) - last) % 65536 :=
    Int.emod_nonneg _ (by norm_num)
  unfold Protocol.SequenceCounter.check_and_update
  rw [hlast]
  by_cases hts : 300 < (now - ts).natAbs
  · simp only [hts, if_pos]
    refine ⟨by simp; omega, by simp, by simp⟩
  · simp only [hts, if_neg, not_false_iff]
    by_cases hd : ((s : Int) - last) % 65536 = 0 ∨ 32768 < ((s : Int) - last) % 65536
    · simp only [hd, if_pos]
      refine ⟨by simp; omega, by simp, by simp⟩
    · simp only [hd, if_neg, not_false_iff]
      refine ⟨by simp; omega, ?_, by simp⟩
      intro _
      exact Protocol.lookup_updateAssoc d s sc.lastReceived

/-- Witness for C2 at a concrete state: device 1 last saw sequence 5,
sequence 6 with a fresh timestamp is accepted and recorded. -/
theorem C2_replay_protection_witness :
    Protocol.lookupAssoc 1 (Protocol.SequenceCounter.mk 0 [(1, 5)]).lastReceived
      = some 5 ∧
    ((Protocol.SequenceCounter.mk 0 [(1, 5)]).check_and_update 1 6 1000 1100).1
      = true := by
  have h := C2_replay_protection (Protocol.SequenceCounter.mk 0 [(1, 5)])
    1 6 1000 1100 5 (by decide)
  exact ⟨by decide, h.1.mpr (by decide)⟩

/-- C9: first contact — with no recorded sequence for the device and a
timestamp within 300 s of local time, any sequence value is accepted
and recorded as the device's last-received value. -/
theorem C9_first_contact_accepts (sc : Protocol.SequenceCounter)
    (d s : Nat) (ts now : Int)
    (hnone : Protocol.lookupAssoc d sc.lastReceived = none)
    (hts : (now - ts).natAbs ≤ 300) :
    (sc.check_and_update d s ts now).1 = true ∧
    Protocol.lookupAssoc d (sc.check_and_update d s ts now).2.lastReceived =
      some s := by
  unfold Protocol.SequenceCounter.check_and_update
  rw [hnone]
  have hts2 : ¬ 300 < (now - ts).natAbs := by omega
  simp only [hts2, if_neg, not_false_iff]
  exact ⟨by trivial, Protocol.lookup_updateAssoc d s sc.lastReceived⟩

/-- Witness for C9: a fresh counter accepts sequence 0 from device 7. -/
theorem C9_first_contact_accepts_witness :
    (Protocol.SequenceCounter.init.check_and_update 7 0 500 600).1 = true ∧
    Protocol.lookupAssoc 7
      (Protocol.SequenceCounter.init.check_and_update 7 0 500 600).2.lastReceived
      = some 0 :=
  C9_first_contact_accepts Protocol.SequenceCounter.init 7 0 500 600
    (by decide) (by decide)

/-- C10: `calculate_error` returns 0 whenever the reference volume is 0,
so `check_pass` reports the point as passing for every DUT volume and
MPE; for non-zero reference it returns `((dut − ref)/ref)·100`, and
`check_pass` holds iff `|error| ≤ |MPE|`. -/
theorem C10_zero_ref_degenerate_pass :
    (∀ dut mpe : ℚ, Iso4064.calculate_error 0 dut = 0 ∧
       Iso4064.check_pass (Iso4064.calculate_error 0 dut) mpe = true) ∧
    (∀ ref dut : ℚ, ref ≠ 0 →
       Iso4064.calculate_error ref dut = (dut - ref) / ref * 100) ∧
    (∀ e m : ℚ, Iso4064.check_pass e m = true ↔ |e| ≤ |m|) := by
  refine ⟨fun dut mpe => ?_, fun ref dut h => ?_, fun e m => ?_⟩
  · constructor
    · simp [Iso4064.calculate_error]
    · simp [Iso4064.calculate_error, Iso4064.check_pass, abs_nonneg]
  · simp [Iso4064.calculate_error, h]
  · simp [Iso4064.check_pass]

/-- Witness for C10: reference 0 with DUT volume 3 passes at MPE 2%,
and a non-zero reference gives the usual relative error. -/
theorem C10_zero_ref_degenerate_pass_witness :
    Iso4064.check_pass (Iso4064.calculate_error 0 3) 2 = true ∧
    Iso4064.calculate_error 2 3 = (3 - 2) / 2 * 100 :=
  ⟨(C10_zero_ref_degenerate_pass.1 3 2).2,
   C10_zero_ref_degenerate_pass.2.1 2 3 (by norm_num)⟩

/-- C3: after any sequence of `ValveController` operations starting from
the all-closed initial state, at most one lane valve is open; and a
(successful) `open_valve` on a lane valve leaves the requested lane open
and every other lane valve closed within the same call. -/
theorem C3_lane_mutual_exclusion :
    (∀ ops : List Valves.Op,
       Valves.atMostOneLane (Valves.runOps Valves.VCState.init ops)) ∧
    (∀ (s : Valves.VCState) (v : Valves.Valve), v.isLane = true →
       (Valves.open_valve s v).valveStates v = true ∧
       ∀ lv : Valves.Valve, lv.isLane = true → lv ≠ v →
         (Valves.open_valve s v).valveStates lv = false) := by
  constructor
  · intro ops
    refine Valves.runOps_preserves _ ops ?_
    intro a b _ _ hao _
    exact absurd hao (by simp [Valves.VCState.init])
  · intro s v hv
    exact Valves.open_valve_lane_excl s v hv

/-- Witness for C3 at a concrete run: after opening BV-L1 then BV-L2 the
state keeps at most one lane valve open, and an `open_valve` of BV-L2
from the state with BV-L1 open closes BV-L1 and opens BV-L2. -/
theorem C3_lane_mutual_exclusion_witness :
    Valves.atMostOneLane
      (Valves.runOps Valves.VCState.init
        [Valves.Op.openV Valves.Valve.BVL1, Valves.Op.openV Valves.Valve.BVL2]) ∧
    (Valves.open_valve (Valves.runOps Valves.VCState.init
        [Valves.Op.openV Valves.Valve.BVL1]) Valves.Valve.BVL2).valveStates
      Valves.Valve.BVL2 = true ∧
    (Valves.open_valve (Valves.runOps Valves.VCState.init
        [Valves.Op.openV Valves.Valve.BVL1]) Valves.Valve.BVL2).valveStates
      Valves.Valve.BVL1 = false := by
  refine ⟨C3_lane_mutual_exclusion.1 [Valves.Op.openV Valves.Valve.BVL1,
    Valves.Op.openV Valves.Valve.BVL2], ?_, ?_⟩
  · exact (C3_lane_mutual_exclusion.2 _ Valves.Valve.BVL2 (by decide)).1
  · exact (C3_lane_mutual_exclusion.2 _ Valves.Valve.BVL2 (by decide)).2
      Valves.Valve.BVL1 (by decide) (by decide)

/-- C4: a pump `start` (or `toggle` from stopped) command is rejected
with an error and leaves the pump stopped iff the reservoir level is
below 70% or no flow path (SV1 or BV-BP) is open; and a `close` command
on SV1 or BV-BP that leaves both SV1 and BV-BP closed while the pump is
running also stops the pump with frequency 0 in the same call. -/
theorem C4_pump_interlocks :
    (∀ (st : BenchUI.SimStates) (action : String) (f : Option ℚ),
       st.pumpState = "stopped" →
       (action = "start" ∨ action = "toggle") →
       (((∃ m, (BenchUI.apiCommand st BenchUI.Dev.P01 action f).2 =
            BenchUI.Resp.error m) ∧
         (BenchUI.apiCommand st BenchUI.Dev.P01 action f).1.pumpState =
           "stopped") ↔
        ¬ (70 ≤ st.resLvl ∧ (st.sv1 = "open" ∨ st.bvbp = "open")))) ∧
    (∀ (st : BenchUI.SimStates) (dev : BenchUI.Dev),
       (dev = BenchUI.Dev.SV1 ∨ dev = BenchUI.Dev.BVBP) →
       st.pumpState = "running" →
       (BenchUI.apiCommand st dev "close" none).1.sv1 ≠ "open" →
       (BenchUI.apiCommand st dev "close" none).1.bvbp ≠ "open" →
       (BenchUI.apiCommand st dev "close" none).1.pumpState = "stopped" ∧
       (BenchUI.apiCommand st dev "close" none).1.pumpFreq = 0) := by
  constructor
  · intro st action f hstop hact
    by_cases htank : 70 ≤ st.resLvl
    · by_cases hflow : st.sv1 = "open" ∨ st.bvbp = "open"
      · rcases hact with rfl | rfl <;>
          simp [BenchUI.apiCommand, BenchUI.Dev.isValve, htank, hflow, hstop]
      · rcases hact with rfl | rfl <;>
          simp [BenchUI.apiCommand, BenchUI.Dev.isValve, htank, hflow, hstop]
    · rcases hact with rfl | rfl <;>
        simp [BenchUI.apiCommand, BenchUI.Dev.isValve, htank, hstop]
  · intro st dev hdev hrun h1 h2
    rcases hdev with rfl | rfl
    · by_cases hbv : st.bvbp = "open"
      · exact absurd (by simp [BenchUI.apiCommand, BenchUI.Dev.isValve,
          BenchUI.setValveState, hbv, hrun]) h2
      · simp [BenchUI.apiCommand, BenchUI.Dev.isValve,
          BenchUI.setValveState, hbv, hrun]
    · by_cases hsv : st.sv1 = "open"
      · exact absurd (by simp [BenchUI.apiCommand, BenchUI.Dev.isValve,
          BenchUI.setValveState, hsv, hrun]) h1
      · simp [BenchUI.apiCommand, BenchUI.Dev.isValve,
          BenchUI.setValveState, hsv, hrun]

/-- Witness for C4: with an 85% reservoir but every flow path closed, a
pump start is refused and the pump stays stopped; and closing SV1 while
the pump runs with BV-BP closed stops the pump in the same call. -/
theorem C4_pump_interlocks_witness :
    (((∃ m, (BenchUI.apiCommand
          (BenchUI.SimStates.mk "closed" "closed" "closed" "open" "closed"
            "connected" "stopped" 0 85) BenchUI.Dev.P01 "start" none).2 =
        BenchUI.Resp.error m) ∧
      (BenchUI.apiCommand
          (BenchUI.SimStates.mk "closed" "closed" "closed" "open" "closed"
            "connected" "stopped" 0 85) BenchUI.Dev.P01 "start" none).1.pumpState
        = "stopped")) ∧
    ((BenchUI.apiCommand
        (BenchUI.SimStates.mk "open" "closed" "closed" "open" "closed"
          "connected" "running" 30 85) BenchUI.Dev.SV1 "close" none).1.pumpState
      = "stopped" ∧
     (BenchUI.apiCommand
        (BenchUI.SimStates.mk "open" "closed" "closed" "open" "closed"
          "connected" "running" 30 85) BenchUI.Dev.SV1 "close" none).1.pumpFreq
      = 0) := by
  constructor
  · exact (C4_pump_interlocks.1
      (BenchUI.SimStates.mk "closed" "closed" "closed" "open" "closed"
        "connected" "stopped" 0 85) "start" none rfl (Or.inl rfl)).mpr
      (by decide)
  · exact C4_pump_interlocks.2
      (BenchUI.SimStates.mk "open" "closed" "closed" "open" "closed"
        "connected" "running" 30 85) BenchUI.Dev.SV1 (Or.inl rfl) rfl
      (by decide) (by decide)

/-- Counterexample to C7: with the default configuration
(`output_min = 5`), an enabled controller whose target is 0 and which
has no manual override returns 0 from `compute`, which is outside
`[output_min, output_max]`. -/
theorem C7_output_can_leave_range :
    (PID.compute {} { enabled := true } 0 1).1 = 0 ∧
    ¬ (PID.Cfg.output_min {} ≤ (PID.compute {} { enabled := true } 0 1).1) := by
  constructor <;> decide

/-- C7 (amended): while enabled, `compute` returns a value in
`[output_min, output_max]` whenever the target is positive or a manual
override is set, and returns 0 when the target is ≤ 0 with no override;
a manual override makes `compute` return the override clamped to
`[output_min, output_max]` and bypass the PID computation, leaving the
integral, previous measurement/error and error history untouched. -/
theorem C7_output_range_and_override (cfg : PID.Cfg) (s : PID.St)
    (measured now : ℚ) (hen : s.enabled = true)
    (hrange : cfg.output_min ≤ cfg.output_max) :
    ((s.manualOutput ≠ none ∨ 0 < s.target) →
       cfg.output_min ≤ (PID.compute cfg s measured now).1 ∧
       (PID.compute cfg s measured now).1 ≤ cfg.output_max) ∧
    (s.manualOutput = none → s.target ≤ 0 →
       (PID.compute cfg s measured now).1 = 0) ∧
    (∀ m, s.manualOutput = some m →
       (PID.compute cfg s measured now).1 =
         max cfg.output_min (min cfg.output_max m) ∧
       (PID.compute cfg s measured now).2 =
         { s with output := max cfg.output_min (min cfg.output_max m) }) := by
  cases hm : s.manualOutput with
  | some m =>
      have hred : PID.compute cfg s measured now =
          (max cfg.output_min (min cfg.output_max m),
           { s with output := max cfg.output_min (min cfg.output_max m) }) := by
        unfold PID.compute
        rw [hm]
        simp [hen]
      rw [hred]
      refine ⟨fun _ => ⟨le_max_left _ _, max_le hrange (min_le_left _ _)⟩,
        fun h => Option.noConfusion h,
        fun m2 hm2 => ?_⟩
      injection hm2 with hmm
      subst hmm
      exact ⟨rfl, by rw [hm]⟩
  | none =>
      refine ⟨fun hpos => ?_, fun _ htgt => ?_,
        fun m2 hm2 => Option.noConfusion hm2⟩
      · have htgt : 0 < s.target := by
          rcases hpos with h | h
          · exact absurd rfl h
          · exact h
        have hnle : ¬ s.target ≤ 0 := not_le.mpr htgt
        unfold PID.compute
        rw [hm]
        simp only [hen, Bool.not_true, if_false, hnle, ite_false,
          Bool.false_eq_true, not_false_eq_true, ite_true]
        exact ⟨le_max_left _ _, max_le hrange (min_le_left _ _)⟩
      · unfold PID.compute
        rw [hm]
        simp [hen, htgt]

/-- Witness for C7 at a concrete call: an enabled controller with
target 500 produces an output within [5, 50], and a manual override of
999 is clamped to 50 without touching the integral or history. -/
theorem C7_output_range_and_override_witness :
    ((5:ℚ) ≤ (PID.compute {} PID.autoSt 100 1).1 ∧
     (PID.compute {} PID.autoSt 100 1).1 ≤ 50) ∧
    ((PID.compute {} PID.manualSt 100 1).1 = 50 ∧
     (PID.compute {} PID.manualSt 100 1).2.integral = 0) := by
  constructor
  · exact (C7_output_range_and_override {} PID.autoSt 100 1 rfl (by decide)).1
      (Or.inr (by decide))
  · have h := (C7_output_range_and_override {} PID.manualSt 100 1 rfl
      (by decide)).2.2 999 rfl
    exact ⟨by rw [h.1]; decide, by rw [h.2]; rfl⟩

/-- Counterexample to C8: a decoded frame whose command is plain
`"DATA"` (does not end in `_ACK`, no truthy `ack` field) but which
carries a non-null `ack_seq` is dispatched to the receive handler, not
treated as an ACK, contrary to the claim. -/
theorem C8_ack_seq_alone_is_dispatched :
    MsgQueue.strEndsWith "DATA" "_ACK" = false ∧
    (MsgQueue.RxPayload.mk "DATA" false (some 5)).ack_seq ≠ none ∧
    MsgQueue.receive_dispatch (MsgQueue.RxPayload.mk "DATA" false (some 5)) =
      MsgQueue.Routed.toReceiveHandler := by
  refine ⟨by decide, by decide, by decide⟩

/-- C8 (amended): a decoded, replay-accepted frame is handled as an ACK
iff (its command ends in `_ACK` or its `ack` field is truthy) *and* its
`ack_seq` is non-null; in that case `_handle_ack` removes the
pending-ACK entry keyed by `ack_seq`, marks the message ACKED with its
completion event set, and the frame is not forwarded; in every other
case the frame is dispatched to the receive handler. -/
theorem C8_ack_routing (p : MsgQueue.RxPayload) (a : Nat)
    (pending : List (Nat × MsgQueue.OutgoingMessage))
    (msg : MsgQueue.OutgoingMessage)
    (hnd : (pending.map Prod.fst).Nodup)
    (hfound : MsgQueue.lookupMsg a pending = some msg) :
    (MsgQueue.receive_dispatch p = MsgQueue.Routed.toAckHandler a ↔
       ((MsgQueue.strEndsWith p.command "_ACK" = true ∨ p.ack = true) ∧
        p.ack_seq = some a)) ∧
    (MsgQueue.receive_dispatch p = MsgQueue.Routed.toReceiveHandler ↔
       ¬ ((MsgQueue.strEndsWith p.command "_ACK" = true ∨ p.ack = true) ∧
          p.ack_seq ≠ none)) ∧
    MsgQueue.lookupMsg a (MsgQueue.handle_ack pending a).1 = none ∧
    (MsgQueue.handle_ack pending a).2 =
      some { msg with status := MsgQueue.MessageStatus.ACKED,
                      ackReceived := true } := by
  refine ⟨?_, ?_, ?_, ?_⟩
  · unfold MsgQueue.receive_dispatch
    by_cases hc : (MsgQueue.strEndsWith p.command "_ACK" || p.ack) = true
    · rw [if_pos hc]
      rw [Bool.or_eq_true] at hc
      cases hseq : p.ack_seq with
      | some b =>
          constructor
          · intro h
            cases h
            exact ⟨hc, rfl⟩
          · rintro ⟨_, hb⟩
            injection hb with hb
            rw [hb]
      | none =>
          constructor
          · intro h
            exact MsgQueue.Routed.noConfusion h
          · rintro ⟨_, hb⟩
            exact Option.noConfusion hb
    · rw [if_neg hc]
      rw [Bool.or_eq_true] at hc
      push_neg at hc
      constructor
      · intro h
        exact MsgQueue.Routed.noConfusion h
      · rintro ⟨hor, _⟩
        rcases hor with h | h
        · exact absurd h (by simpa using hc.1)
        · exact absurd h (by simpa using hc.2)
  · unfold MsgQueue.receive_dispatch
    by_cases hc : (MsgQueue.strEndsWith p.command "_ACK" || p.ack) = true
    · rw [if_pos hc]
      rw [Bool.or_eq_true] at hc
      cases hseq : p.ack_seq with
      | some b =>
          constructor
          · intro h
            exact MsgQueue.Routed.noConfusion h
          · intro h
            exact absurd ⟨hc, fun h2 => Option.noConfusion h2⟩ h
      | none =>
          constructor
          · intro _
            rintro ⟨_, hb⟩
            exact hb rfl
          · intro _
            rfl
    · rw [if_neg hc]
      rw [Bool.or_eq_true] at hc
      push_neg at hc
      constructor
      · intro _
        rintro ⟨hor, _⟩
        rcases hor with h | h
        · exact absurd h (by simpa using hc.1)
        · exact absurd h (by simpa using hc.2)
      · intro _
        rfl
  · have hp := MsgQueue.popMsg_found a pending msg hfound
    simp only [MsgQueue.handle_ack, hp]
    exact MsgQueue.popMsg_removes a pending hnd
  · have hp := MsgQueue.popMsg_found a pending msg hfound
    simp only [MsgQueue.handle_ack, hp]

/-- Witness for C8 at a concrete frame and queue: a `STATUS_ACK` frame
with `ack_seq = 3` is routed to the ACK handler, the entry for 3 is
removed and its message marked ACKED with the event set. -/
theorem C8_ack_routing_witness :
    (MsgQueue.receive_dispatch (MsgQueue.RxPayload.mk "STATUS_ACK" false (some 3))
       = MsgQueue.Routed.toAckHandler 3) ∧
    MsgQueue.lookupMsg 3
      (MsgQueue.handle_ack
        [(3, MsgQueue.OutgoingMessage.mk 1 MsgQueue.MessageStatus.SENT 3 false)]
        3).1 = none ∧
    (MsgQueue.handle_ack
        [(3, MsgQueue.OutgoingMessage.mk 1 MsgQueue.MessageStatus.SENT 3 false)]
        3).2 =
      some (MsgQueue.OutgoingMessage.mk 1 MsgQueue.MessageStatus.ACKED 3 true) := by
  have h := C8_ack_routing (MsgQueue.RxPayload.mk "STATUS_ACK" false (some 3)) 3
    [(3, MsgQueue.OutgoingMessage.mk 1 MsgQueue.MessageStatus.SENT 3 false)]
    (MsgQueue.OutgoingMessage.mk 1 MsgQueue.MessageStatus.SENT 3 false)
    (by decide) (by decide)
  exact ⟨h.1.mpr ⟨Or.inl (by decide), rfl⟩, h.2.2.1, h.2.2.2⟩

/-- C1: under the library contracts for JSON, zlib, AES-256-CBC and
HMAC-SHA256 (the primitives live outside this repository), decoding an
encoded frame with the same keys succeeds and returns the original
payload (after JSON normalisation), device id, sequence and timestamp;
and a frame whose byte at any position after the 10-byte header and
before the 32-byte MAC has been altered fails to decode with the
MAC-verification error, whenever the altered body does not collide with
the original under HMAC-SHA256 (for the real HMAC a collision has
negligible probability). -/
theorem C1_frame_codec_roundtrip_and_tamper {α : Type}
    (P : Protocol.CodecPrims α)
    (hjson : ∀ q, P.jsonLoads (P.jsonDumps q) = some q)
    (hzlib : ∀ b, P.decompress (P.compress b) = some b)
    (hiv : P.iv.length = 16)
    (henc : ∀ b, 16 ≤ (P.aesEncrypt b).length)
    (haes : ∀ b, P.aesDecrypt P.iv (P.aesEncrypt b) = some b)
    (hmac32 : ∀ d, (P.hmacSha256 d).length = 32)
    (p : α) (did seq ts : Nat)
    (hdid : did < 2 ^ 32) (hseq : seq < 2 ^ 16) (hts : ts < 2 ^ 32) :
    Protocol.decode P (Protocol.encode P p did seq ts) =
      Except.ok (Protocol.ASPFrame.mk did seq ts p) ∧
    (∀ i b : Nat, Protocol.HEADER_SIZE ≤ i →
       i < (Protocol.encode P p did seq ts).length - Protocol.HMAC_SIZE →
       P.hmacSha256 (((Protocol.encode P p did seq ts).set i b).take
           ((Protocol.encode P p did seq ts).length - Protocol.HMAC_SIZE)) ≠
         P.hmacSha256 ((Protocol.encode P p did seq ts).take
           ((Protocol.encode P p did seq ts).length - Protocol.HMAC_SIZE)) →
       Protocol.decode P ((Protocol.encode P p did seq ts).set i b) =
         Except.error
           "HMAC verification failed — frame tampered or wrong key") := by
  have hhl := Protocol.packHeader_length did seq ts
  have hel : 32 ≤ (P.iv ++ P.aesEncrypt (P.compress (P.jsonDumps p))).length := by
    rw [List.length_append, hiv]
    have := henc (P.compress (P.jsonDumps p))
    omega
  have hbl : (Protocol.packHeader did seq ts ++
      (P.iv ++ P.aesEncrypt (P.compress (P.jsonDumps p)))).length =
      10 + (P.iv ++ P.aesEncrypt (P.compress (P.jsonDumps p))).length := by
    rw [List.length_append, hhl]
  have htagl := hmac32 (Protocol.packHeader did seq ts ++
    (P.iv ++ P.aesEncrypt (P.compress (P.jsonDumps p))))
  have hflen : (Protocol.encode P p did seq ts).length =
      (Protocol.packHeader did seq ts ++
        (P.iv ++ P.aesEncrypt (P.compress (P.jsonDumps p)))).length + 32 := by
    rw [Protocol.encode_eq, List.length_append, htagl]
  have hsub : (Protocol.encode P p did seq ts).length - Protocol.HMAC_SIZE =
      (Protocol.packHeader did seq ts ++
        (P.iv ++ P.aesEncrypt (P.compress (P.jsonDumps p)))).length := by
    rw [hflen]
    simp [Protocol.HMAC_SIZE]
  have hnotshort : ¬ (Protocol.encode P p did seq ts).length <
      Protocol.HEADER_SIZE + 32 + Protocol.HMAC_SIZE := by
    rw [hflen, hbl]
    simp only [Protocol.HEADER_SIZE, Protocol.HMAC_SIZE]
    omega
  have hparse : Protocol.unpackHeader
      ((Protocol.packHeader did seq ts ++
        (P.iv ++ P.aesEncrypt (P.compress (P.jsonDumps p)))).take
          Protocol.HEADER_SIZE) = (did, seq, ts) := by
    have h10 : Protocol.HEADER_SIZE = (Protocol.packHeader did seq ts).length := by
      rw [hhl]
      rfl
    rw [h10, List.take_left]
    exact Protocol.unpackHeader_packHeader did seq ts hdid hseq hts
  have hdecrypt : Protocol.cryptoDecrypt P
      ((Protocol.packHeader did seq ts ++
        (P.iv ++ P.aesEncrypt (P.compress (P.jsonDumps p)))).drop
          Protocol.HEADER_SIZE) = some (P.compress (P.jsonDumps p)) := by
    have h10 : Protocol.HEADER_SIZE = (Protocol.packHeader did seq ts).length := by
      rw [hhl]
      rfl
    rw [h10, List.drop_left]
    unfold Protocol.cryptoDecrypt
    rw [if_neg (by omega)]
    rw [List.take_left' hiv, List.drop_left' hiv]
    exact haes _
  constructor
  · rw [Protocol.encode_eq] at hsub hnotshort ⊢
    simp only [Protocol.decode]
    rw [if_neg hnotshort, hsub, List.take_left, List.drop_left]
    have hver : Protocol.cryptoVerify P
        (Protocol.packHeader did seq ts ++
          (P.iv ++ P.aesEncrypt (P.compress (P.jsonDumps p))))
        (P.hmacSha256 (Protocol.packHeader did seq ts ++
          (P.iv ++ P.aesEncrypt (P.compress (P.jsonDumps p))))) = true := by
      simp [Protocol.cryptoVerify]
    rw [hver]
    simp only [Bool.true_eq_false, if_false]
    simp only [hdecrypt, hzlib, hjson, hparse]
  · intro i b hi hi2 hcoll
    have hlset : ((Protocol.encode P p did seq ts).set i b).length =
        (Protocol.encode P p did seq ts).length := List.length_set _ _ _
    simp only [Protocol.decode, hlset]
    rw [if_neg hnotshort]
    have hdropset : ((Protocol.encode P p did seq ts).set i b).drop
        ((Protocol.encode P p did seq ts).length - Protocol.HMAC_SIZE) =
        (Protocol.encode P p did seq ts).drop
          ((Protocol.encode P p did seq ts).length - Protocol.HMAC_SIZE) := by
      rw [List.drop_set]
      rw [if_pos hi2]
    rw [hdropset]
    have htagdrop : (Protocol.encode P p did seq ts).drop
        ((Protocol.encode P p did seq ts).length - Protocol.HMAC_SIZE) =
        P.hmacSha256 (Protocol.packHeader did seq ts ++
          (P.iv ++ P.aesEncrypt (P.compress (P.jsonDumps p)))) := by
      rw [Protocol.encode_eq] at hsub ⊢
      rw [hsub, List.drop_left]
    have hbodytake : (Protocol.encode P p did seq ts).take
        ((Protocol.encode P p did seq ts).length - Protocol.HMAC_SIZE) =
        Protocol.packHeader did seq ts ++
          (P.iv ++ P.aesEncrypt (P.compress (P.jsonDumps p))) := by
      rw [Protocol.encode_eq] at hsub ⊢
      rw [hsub, List.take_left]
    have hver : Protocol.cryptoVerify P
        (((Protocol.encode P p did seq ts).set i b).take
          ((Protocol.encode P p did seq ts).length - Protocol.HMAC_SIZE))
        ((Protocol.encode P p did seq ts).drop
          ((Protocol.encode P p did seq ts).length - Protocol.HMAC_SIZE)) =
        false := by
      rw [htagdrop]
      unfold Protocol.cryptoVerify
      rw [decide_eq_false_iff_not]
      rw [hbodytake] at hcoll
      intro hcontra
      exact hcoll (by rw [hcontra])
    rw [hver]
    simp

/-- Concrete witness primitives for the codec: identity JSON and zlib,
an all-zero IV, AES modelled as appending one padding block, and a
byte-sum MAC padded to 32 bytes.  They satisfy every library contract
the codec theorems assume. -/
def witnessPrims : Protocol.CodecPrims (List Nat) where
  jsonDumps := fun q => q
  jsonLoads := fun b => some b
  compress := fun b => b
  decompress := fun b => some b
  iv := List.replicate 16 0
  aesEncrypt := fun b => b ++ List.replicate 16 1
  aesDecrypt := fun _ ct => some (ct.take (ct.length - 16))
  hmacSha256 := fun d => (d.foldl (· + ·) 0 % 256) :: List.replicate 31 0

/-- Witness for C1 with the concrete primitives: a three-byte payload
round-trips through encode/decode, and flipping the first IV byte
(position 10) makes decode fail with the MAC error. -/
theorem C1_frame_codec_roundtrip_and_tamper_witness :
    Protocol.decode witnessPrims
        (Protocol.encode witnessPrims [1, 2, 3] 2 5 1000) =
      Except.ok (Protocol.ASPFrame.mk 2 5 1000 [1, 2, 3]) ∧
    Protocol.decode witnessPrims
        ((Protocol.encode witnessPrims [1, 2, 3] 2 5 1000).set 10 9) =
      Except.error "HMAC verification failed — frame tampered or wrong key" := by
  have h := C1_frame_codec_roundtrip_and_tamper witnessPrims
    (fun q => rfl) (fun b => rfl) (by decide)
    (fun b => by simp [witnessPrims])
    (fun b => by simp [witnessPrims])
    (fun d => by simp [witnessPrims])
    [1, 2, 3] 2 5 1000 (by decide) (by decide) (by decide)
  exact ⟨h.1, h.2 10 9 (by decide) (by decide) (by decide)⟩

/-- C6: `fragment` yields one fragment with total 1 carrying the frame
unchanged when it fits in 255 bytes, and otherwise ⌈len/252⌉ fragments
with the same group id, indices 0..n−1 and identical totals; a
single-fragment message returns its data immediately from `add` without
touching the buffers, and feeding all fragments of a multi-fragment
group to `add` in any order returns `none` for every fragment but the
last and the original frame for the last. -/
theorem C6_fragmentation_roundtrip :
    (∀ (frame : List Nat) (fid : Nat), frame.length ≤ 255 →
       Protocol.fragment frame fid = [Protocol.Fragment.mk fid 0 1 frame]) ∧
    (∀ (frame : List Nat) (fid : Nat), 255 < frame.length →
       (Protocol.fragment frame fid).length = (frame.length + 251) / 252 ∧
       Protocol.fragment frame fid =
         (List.range (Protocol.chunksOf frame).length).map
           (fun k => Protocol.Fragment.mk fid k
             (Protocol.chunksOf frame).length
             ((Protocol.chunksOf frame).getD k []))) ∧
    (∀ (r : Protocol.FragmentReassembler) (f : Protocol.Fragment) (now : ℚ),
       f.total_fragments = 1 →
       r.add f now = Except.ok (some f.data, r)) ∧
    (∀ (frame : List Nat) (fid : Nat) (l : List Protocol.Fragment) (now : ℚ),
       255 < frame.length →
       l.Perm (Protocol.fragment frame fid) →
       Protocol.addAll Protocol.FragmentReassembler.empty l now =
         Except.ok (List.replicate (l.length - 1) none ++ [some frame],
                    Protocol.FragmentReassembler.empty)) := by
  have hfrag : ∀ (frame : List Nat) (fid : Nat), 255 < frame.length →
      Protocol.fragment frame fid =
        (List.range (Protocol.chunksOf frame).length).map
          (fun k => Protocol.Fragment.mk fid k
            (Protocol.chunksOf frame).length
            ((Protocol.chunksOf frame).getD k [])) := by
    intro frame fid h
    unfold Protocol.fragment
    rw [if_neg (by simp [Protocol.MAX_LORA_PAYLOAD]; omega)]
    rw [Protocol.enumFrags_eq]
    simp
  have hn2 : ∀ frame : List Nat, 255 < frame.length →
      2 ≤ (Protocol.chunksOf frame).length := by
    intro frame h
    have hne : frame ≠ [] := by
      intro hh
      rw [hh] at h
      simp at h
    rw [Protocol.chunksOf_length frame hne]
    omega
  refine ⟨?_, ?_, ?_, ?_⟩
  · intro frame fid h
    unfold Protocol.fragment
    rw [if_pos (by simpa [Protocol.MAX_LORA_PAYLOAD] using h)]
  · intro frame fid h
    have hne : frame ≠ [] := by
      intro hh
      rw [hh] at h
      simp at h
    refine ⟨?_, hfrag frame fid h⟩
    rw [hfrag frame fid h]
    rw [List.length_map, List.length_range, Protocol.chunksOf_length frame hne]
  · intro r f now h
    simp [Protocol.FragmentReassembler.add, h]
  · intro frame fid l now h hperm
    have h2 : 2 ≤ (Protocol.chunksOf frame).length := hn2 frame h
    have hfr := hfrag frame fid h
    have hmapid : (Protocol.fragment frame fid).map
        Protocol.Fragment.frag_index =
          List.range (Protocol.chunksOf frame).length := by
      rw [hfr, List.map_map]
      simp [Function.comp_def]
    have hpermis : (l.map Protocol.Fragment.frag_index).Perm
        (List.range (Protocol.chunksOf frame).length) := by
      rw [← hmapid]
      exact hperm.map Protocol.Fragment.frag_index
    have hmem : ∀ x ∈ l,
        Protocol.Fragment.mk fid x.frag_index
            (Protocol.chunksOf frame).length
            ((Protocol.chunksOf frame).getD x.frag_index []) = x := by
      intro x hx
      have hxg : x ∈ Protocol.fragment frame fid := hperm.mem_iff.mp hx
      rw [hfr] at hxg
      obtain ⟨k, _, hk⟩ := List.mem_map.mp hxg
      rw [← hk]
    have hleq : l = (l.map Protocol.Fragment.frag_index).map
        (fun k => Protocol.Fragment.mk fid k
          (Protocol.chunksOf frame).length
          ((Protocol.chunksOf frame).getD k [])) := by
      rw [List.map_map]
      symm
      calc l.map (fun x => Protocol.Fragment.mk fid x.frag_index
              (Protocol.chunksOf frame).length
              ((Protocol.chunksOf frame).getD x.frag_index []))
          = l.map id := List.map_congr_left (fun x hx => hmem x hx)
        _ = l := List.map_id l
    have hres := Protocol.addAll_perm_range fid
      (Protocol.chunksOf frame).length now (Protocol.chunksOf frame) rfl h2
      (l.map Protocol.Fragment.frag_index) hpermis
    rw [← hleq] at hres
    rw [hres, List.length_map, Protocol.chunksOf_flatten]

/-- Witness for C6: a 3-byte frame fragments to a single total-1
fragment; a 256-byte frame yields its fragments, which fed in order
reassemble to the original frame; and a single-total fragment passes
through `add` untouched. -/
theorem C6_fragmentation_roundtrip_witness :
    Protocol.fragment [1, 2, 3] 0 = [Protocol.Fragment.mk 0 0 1 [1, 2, 3]] ∧
    (Protocol.fragment (List.replicate 256 7) 9).length =
      ((List.replicate 256 7 : List Nat).length + 251) / 252 ∧
    Protocol.FragmentReassembler.empty.add
        (Protocol.Fragment.mk 4 0 1 [5, 6]) 0 =
      Except.ok (some [5, 6], Protocol.FragmentReassembler.empty) ∧
    Protocol.addAll Protocol.FragmentReassembler.empty
        (Protocol.fragment (List.replicate 256 7) 9) 0 =
      Except.ok (List.replicate
          ((Protocol.fragment (List.replicate 256 7) 9).length - 1) none ++
          [some (List.replicate 256 7)],
        Protocol.FragmentReassembler.empty) := by
  have h256 : (255 : Nat) < (List.replicate 256 7 : List Nat).length := by
    rw [List.length_replicate]
    omega
  refine ⟨C6_fragmentation_roundtrip.1 [1, 2, 3] 0 (by decide),
    (C6_fragmentation_roundtrip.2.1 (List.replicate 256 7) 9 h256).1,
    C6_fragmentation_roundtrip.2.2.1 Protocol.FragmentReassembler.empty
      (Protocol.Fragment.mk 4 0 1 [5, 6]) 0 rfl,
    C6_fragmentation_roundtrip.2.2.2 (List.replicate 256 7) 9
      (Protocol.fragment (List.replicate 256 7) 9) 0 h256 (List.Perm.refl _)⟩

/-- Counterexample to C5: a snapshot with every per-bridge online flag
false still produces alarms from `check_snapshot`, because the pre-flight
variant does not gate its checks by the online flags. -/
theorem C5_check_snapshot_not_gated :
    Safety.allBridgesOffline Safety.offlineBadSnap = true ∧
    Safety.check_snapshot {} Safety.offlineBadSnap ≠ [] := by
  constructor
  · rfl
  · decide

/-- C5 (amended): in the periodic check `_check_all`, every alarm raised
is gated by its per-bridge online flag, so a snapshot whose bridge flags
are all false produces no alarms there; the pre-flight `check_snapshot`
applies its checks unconditionally. -/
theorem C5_periodic_check_gated (lim : Safety.Limits)
    (snap : Safety.SensorSnapshot) :
    (∀ c ∈ Safety.checkAll lim snap, Safety.bridgeFlag snap c = true) ∧
    (Safety.allBridgesOffline snap = true → Safety.checkAll lim snap = []) := by
  constructor
  · intro c hc
    unfold Safety.checkAll at hc
    simp only [List.mem_append, List.mem_ite_nil_right] at hc
    rcases hc with ((((((((⟨h, hc⟩ | ⟨h, hc⟩) | ⟨h, hc⟩) | ⟨h, hc⟩) | ⟨h, hc⟩)
      | ⟨h, hc⟩) | ⟨h, hc⟩) | ⟨h, hc⟩) | ⟨h, hc⟩) <;>
      simp_all [Safety.bridgeFlag]
  · intro hoff
    unfold Safety.allBridgesOffline at hoff
    unfold Safety.checkAll
    simp_all

/-- Witness for C5 at the concrete hostile snapshot: with all bridges
offline the periodic check raises nothing, even though the readings are
far outside their limits. -/
theorem C5_periodic_check_gated_witness :
    Safety.checkAll {} Safety.offlineBadSnap = [] :=
  (C5_periodic_check_gated {} Safety.offlineBadSnap).2 (by rfl)

end ATB
